import Mathlib

/-!
Verification of the tcpez length-prefixed framing library.

This file gives a shallow embedding of the tcpez wire codec, the server
request dispatcher, the client retry loop, the pipeline flush, the
connection pool constructor, and the span counters, and proves the frozen
claims about them.

Conventions of the embedding:
* a byte stream is a `List Nat` (each element a byte value 0..255);
  a finite list models a connection that delivers exactly these bytes and
  is then closed, so a short read is an I/O error, exactly as `io.ReadFull`
  and `binary.Read` report it;
* Go `int32` values are `Int`s; every place the Go code casts or wraps at
  32 bits the embedding applies `toInt32` explicitly;
* fallible operations return an inductive result; a Go runtime panic
  (negative `make` length, nil-connection method call, out-of-range index)
  is a dedicated `panicked` constructor, distinct from an `error` return;
* network effects that cannot be byte-level (dialing, per-attempt I/O
  outcomes) are supplied as explicit outcome oracles.
-/

set_option maxRecDepth 10000

namespace Tcpez

/-- Wrap an unbounded integer to the Go `int32` range, as a Go `int32`
cast or 32-bit overflow does. -/
def toInt32 (n : Int) : Int := (n + 2 ^ 31) % 2 ^ 32 - 2 ^ 31

/-- Big-endian encoding of `int32(n)` into four bytes, as
`binary.Write(buf, binary.BigEndian, int32(n))` emits them. -/
def encInt32 (n : Int) : List Nat :=
  let u := (n % 2 ^ 32).toNat
  [u / 2 ^ 24 % 256, u / 2 ^ 16 % 256, u / 2 ^ 8 % 256, u % 256]

/-- Big-endian decoding of four bytes into an `int32` value, as
`binary.Read(conn, binary.BigEndian, &size)` interprets them. -/
def decInt32 (b0 b1 b2 b3 : Nat) : Int :=
  toInt32 (((b0 * 2 ^ 24 + b1 * 2 ^ 16 + b2 * 2 ^ 8 + b3) % 2 ^ 32 : Nat) : Int)

/-- `binary.Read` of one big-endian `int32` from the stream: four bytes or
an error. -/
def readInt32 : List Nat → Option (Int × List Nat)
  | b0 :: b1 :: b2 :: b3 :: rest => some (decInt32 b0 b1 b2 b3, rest)
  | _ => none

theorem toInt32_eq_of_bounds (n : Int) (h1 : -2 ^ 31 ≤ n) (h2 : n < 2 ^ 31) :
    toInt32 n = n := by
  unfold toInt32
  omega

theorem encInt32_length (n : Int) : (encInt32 n).length = 4 := rfl

/-- Decoding the four bytes of an encoded `int32` recovers the value up to
32-bit wrap-around. -/
theorem readInt32_encInt32 (n : Int) (rest : List Nat) :
    readInt32 (encInt32 n ++ rest) = some (toInt32 n, rest) := by
  have hmod : 0 ≤ n % 2 ^ 32 := Int.emod_nonneg n (by norm_num)
  have hlt : n % 2 ^ 32 < 2 ^ 32 := Int.emod_lt_of_pos n (by norm_num)
  simp only [encInt32, List.cons_append, List.nil_append, readInt32]
  have key : decInt32 ((n % 2 ^ 32).toNat / 2 ^ 24 % 256) ((n % 2 ^ 32).toNat / 2 ^ 16 % 256)
      ((n % 2 ^ 32).toNat / 2 ^ 8 % 256) ((n % 2 ^ 32).toNat % 256) = toInt32 n := by
    set u : Nat := (n % 2 ^ 32).toNat with hu
    have hub : u < 2 ^ 32 := by omega
    have hrecomp : (u / 2 ^ 24 % 256) * 2 ^ 24 + (u / 2 ^ 16 % 256) * 2 ^ 16 +
        (u / 2 ^ 8 % 256) * 2 ^ 8 + u % 256 = u := by omega
    unfold decInt32
    rw [Nat.mod_eq_of_lt (by omega : (u / 2 ^ 24 % 256) * 2 ^ 24 + (u / 2 ^ 16 % 256) * 2 ^ 16 +
      (u / 2 ^ 8 % 256) * 2 ^ 8 + u % 256 < 2 ^ 32)]
    rw [hrecomp]
    unfold toInt32
    omega
  rw [key]

/-- A request or response handler: `Respond(req, span) ([]byte, error)`.
`none` models a non-nil error return; the span argument does not influence
the returned bytes and is omitted. -/
def Handler := List Nat → Option (List Nat)

/-- `writeDataWithLength` (client.go): emit `int32(len(data))` big-endian,
then the payload bytes. Writes to an in-memory buffer never fail. -/
def writeDataWithLength (data : List Nat) : List Nat :=
  encInt32 (data.length : Int) ++ data

/-- Result of `readDataWithLength`: `panicked` models the Go runtime panic
of `make([]byte, size)` with a negative size. -/
inductive ReadRes where
  | ok (data rest : List Nat)
  | err
  | panicked
deriving DecidableEq

/-- The shared tail of `readDataWithLength` and `parseRequest`:
`make([]byte, size)` (runtime panic if the size is negative) followed by
`io.ReadFull` of exactly that many bytes. -/
def readFrameBody (size : Int) (rest : List Nat) : ReadRes :=
  if size < 0 then .panicked
  else if rest.length < size.toNat then .err
  else .ok (rest.take size.toNat) (rest.drop size.toNat)

/-- `readDataWithLength` (client.go): read an `int32` size, then allocate
and fill the payload. -/
def readDataWithLength (input : List Nat) : ReadRes :=
  match readInt32 input with
  | none => .err
  | some (size, rest) => readFrameBody size rest

/-- `parseRequest` (server.go): if the passed `size` is `0`, first read a
fresh `int32` size from the stream (this is how the batch path delimits
sub-frames); then allocate and fill the payload exactly as
`readDataWithLength` does. -/
def parseRequest (input : List Nat) (size : Int) : ReadRes :=
  if size = 0 then
    match readInt32 input with
    | none => .err
    | some (sz, rest) => readFrameBody sz rest
  else readFrameBody size input

/-- Result of the batch sub-request loop of `readHeaderAndHandleRequest`:
the per-index response slots (a failed parse or an errored handler leaves
its slot `nil`, modelled as `[]`) and the unread remainder of the stream. -/
inductive BatchRes where
  | ok (slots : List (List Nat)) (rest : List Nat)
  | panicked
deriving DecidableEq

/-- The batch loop of `readHeaderAndHandleRequest` (server.go): parse
`count` sub-frames with `parseRequest(buf, 0)`; on parse success hand the
sub-request to a worker goroutine whose result fills the slot only when the
handler returned a nil error; a parse failure is skipped (the shadowed
`err` is dropped) and leaves both the slot nil and the reader exhausted.
Workers fill disjoint slots and are joined before use, so their effect is
the pure per-slot handler result. -/
def batchSlots (h : Handler) : Nat → List Nat → BatchRes
  | 0, input => .ok [] input
  | n + 1, input =>
    match parseRequest input 0 with
    | .panicked => .panicked
    | .err =>
      match batchSlots h n [] with
      | .panicked => .panicked
      | .ok slots rest => .ok ([] :: slots) rest
    | .ok req rest =>
      match batchSlots h n rest with
      | .panicked => .panicked
      | .ok slots rest2 => .ok ((h req).getD [] :: slots) rest2

theorem batchSlots_zero (h : Handler) (input : List Nat) :
    batchSlots h 0 input = .ok [] input := rfl

theorem batchSlots_succ_ok (h : Handler) (n : Nat) (input req rest : List Nat)
    (hp : parseRequest input 0 = .ok req rest) :
    batchSlots h (n + 1) input =
      match batchSlots h n rest with
      | .panicked => .panicked
      | .ok slots rest2 => .ok ((h req).getD [] :: slots) rest2 := by
  rw [batchSlots, hp]

theorem batchSlots_succ_err (h : Handler) (n : Nat) (input : List Nat)
    (hp : parseRequest input 0 = .err) :
    batchSlots h (n + 1) input =
      match batchSlots h n [] with
      | .panicked => .panicked
      | .ok slots rest => .ok ([] :: slots) rest := by
  rw [batchSlots, hp]

/-- One emitted batch response slot: `int32(len(responses[j]))` then the
slot's bytes. -/
def slotBytes (s : List Nat) : List Nat :=
  encInt32 (s.length : Int) ++ s

/-- The batch output buffer: every slot in request order. -/
def batchBody (slots : List (List Nat)) : List Nat :=
  (slots.map slotBytes).flatten

/-- Result of `readHeaderAndHandleRequest`: header and response bytes plus
the unread remainder of the stream, or an error return, or a runtime
panic. -/
inductive ServerRes where
  | ok (header : Int) (body rest : List Nat)
  | err
  | panicked
deriving DecidableEq

/-- `readHeaderAndHandleRequest` (server.go): read the `int32` header; a
negative header `size` starts the batch path with `count = -size` (int32
negation, which wraps at `-2^31`, making `count` negative there), then
allocates `requests := make([][]byte, count)` — a runtime panic when
`count` is negative — runs the sub-frame loop and always returns a nil
error with header `int32(-count)`; a non-negative header is a single
request parsed by `parseRequest(buf, size)`, answered with header
`int32(len(response))`, where a parse failure or handler error is
returned as an error. -/
def readHeaderAndHandleRequest (h : Handler) (input : List Nat) : ServerRes :=
  match readInt32 input with
  | none => .err
  | some (size, rest) =>
    if size < 0 then
      let count := toInt32 (-size)
      if count < 0 then .panicked
      else
        match batchSlots h count.toNat rest with
        | .panicked => .panicked
        | .ok slots rest2 => .ok (toInt32 (-count)) (batchBody slots) rest2
    else
      match parseRequest rest size with
      | .panicked => .panicked
      | .err => .err
      | .ok req rest2 =>
        match h req with
        | none => .err
        | some res => .ok (toInt32 (res.length : Int)) res rest2

/-- `sendResponse` (server.go): the bytes put on the wire for a response,
`int32(header)` then the response body. -/
def sendResponse (header : Int) (data : List Nat) : List Nat :=
  encInt32 header ++ data

/-- The echo handler of the round-trip property: `Respond` returns the
request bytes with a nil error. -/
def echoHandler : Handler := fun req => some req

theorem readFrameBody_all (p : List Nat) :
    readFrameBody (p.length : Int) p = .ok p [] := by
  unfold readFrameBody
  rw [if_neg (by omega : ¬ (p.length : Int) < 0)]
  have htn : (p.length : Int).toNat = p.length := by omega
  rw [htn]
  rw [if_neg (by omega : ¬ p.length < p.length)]
  rw [List.take_length, List.drop_length]

theorem readFrameBody_exact (p rest : List Nat) :
    readFrameBody (p.length : Int) (p ++ rest) = .ok p rest := by
  unfold readFrameBody
  rw [if_neg (by omega : ¬ (p.length : Int) < 0)]
  have htn : (p.length : Int).toNat = p.length := by omega
  rw [htn]
  rw [if_neg (by simp [List.length_append] : ¬ (p ++ rest).length < p.length)]
  rw [List.take_left, List.drop_left]

theorem readDataWithLength_some (input : List Nat) (sz : Int) (rest : List Nat)
    (h : readInt32 input = some (sz, rest)) :
    readDataWithLength input = readFrameBody sz rest := by
  unfold readDataWithLength
  rw [h]

theorem readDataWithLength_frame (r rest : List Nat) (hr : r.length ≤ 2 ^ 31 - 1) :
    readDataWithLength (writeDataWithLength r ++ rest) = .ok r rest := by
  have henc : readInt32 (writeDataWithLength r ++ rest) = some ((r.length : Int), r ++ rest) := by
    unfold writeDataWithLength
    rw [List.append_assoc, readInt32_encInt32]
    rw [toInt32_eq_of_bounds _ (by omega) (by omega)]
  rw [readDataWithLength_some _ _ _ henc, readFrameBody_exact]

theorem parseRequest_zero (input : List Nat) :
    parseRequest input 0 = readDataWithLength input := by
  unfold parseRequest readDataWithLength
  rw [if_pos rfl]

theorem parseRequest_nonzero (input : List Nat) (size : Int) (h : size ≠ 0) :
    parseRequest input size = readFrameBody size input := by
  unfold parseRequest
  rw [if_neg h]

theorem parseRequest_frame (r rest : List Nat) (hr : r.length ≤ 2 ^ 31 - 1) :
    parseRequest (writeDataWithLength r ++ rest) 0 = .ok r rest := by
  rw [parseRequest_zero, readDataWithLength_frame r rest hr]

theorem readHeaderAndHandleRequest_some (h : Handler) (input : List Nat) (size : Int)
    (rest : List Nat) (hr : readInt32 input = some (size, rest)) :
    readHeaderAndHandleRequest h input =
      (if size < 0 then
        if toInt32 (-size) < 0 then .panicked
        else
          match batchSlots h (toInt32 (-size)).toNat rest with
          | .panicked => .panicked
          | .ok slots rest2 => .ok (toInt32 (-(toInt32 (-size)))) (batchBody slots) rest2
      else
        match parseRequest rest size with
        | .panicked => .panicked
        | .err => .err
        | .ok req rest2 =>
          match h req with
          | none => ServerRes.err
          | some res => .ok (toInt32 (res.length : Int)) res rest2) := by
  unfold readHeaderAndHandleRequest
  rw [hr]

/-- The response slots a joined batch produces for fully parsed
sub-requests: the handler result, or nil when the handler errored. -/
def handlerSlots (h : Handler) (reqs : List (List Nat)) : List (List Nat) :=
  reqs.map (fun r => (h r).getD [])

theorem batchSlots_nil_input (h : Handler) (m : Nat) :
    batchSlots h m [] = .ok (List.replicate m []) [] := by
  induction m with
  | zero => rfl
  | succ n ih =>
    have hp : parseRequest ([] : List Nat) 0 = .err := rfl
    rw [batchSlots_succ_err h n [] hp, ih, List.replicate_succ]

theorem batchSlots_frames (h : Handler) (reqs : List (List Nat)) (m : Nat) (rest : List Nat)
    (hwf : ∀ r ∈ reqs, r.length ≤ 2 ^ 31 - 1) :
    batchSlots h (reqs.length + m) ((reqs.map writeDataWithLength).flatten ++ rest) =
      (match batchSlots h m rest with
      | .panicked => .panicked
      | .ok slots rest2 => .ok (handlerSlots h reqs ++ slots) rest2) := by
  induction reqs generalizing rest with
  | nil =>
    simp only [List.length_nil, Nat.zero_add, List.map_nil, List.flatten_nil,
      List.nil_append, handlerSlots]
    cases batchSlots h m rest <;> rfl
  | cons r rs ih =>
    have hwr : r.length ≤ 2 ^ 31 - 1 := hwf r (List.mem_cons_self r rs)
    have hwrs : ∀ x ∈ rs, x.length ≤ 2 ^ 31 - 1 := fun x hx => hwf x (List.mem_cons_of_mem r hx)
    have hlen : (r :: rs).length + m = (rs.length + m) + 1 := by
      simp [List.length_cons]
      omega
    rw [hlen]
    have hflat : ((r :: rs).map writeDataWithLength).flatten ++ rest =
        writeDataWithLength r ++ (((rs.map writeDataWithLength).flatten) ++ rest) := by
      simp [List.map_cons, List.flatten_cons, List.append_assoc]
    rw [hflat]
    rw [batchSlots_succ_ok h (rs.length + m) _ r _ (parseRequest_frame r _ hwr)]
    rw [ih _ hwrs]
    cases batchSlots h m rest <;> simp [handlerSlots, List.map_cons]

/-- C2 (amended): a batch request with header `-N` (`1 ≤ N ≤ 2^31 - 1`)
and `N` well-formed sub-frames is answered with header `-N` and exactly
`N` length-prefixed responses in request order; a sub-request whose
handler errored contributes a zero-length slot and the others are still
answered. The one remaining representable count, `N = 2^31` announced by
header `-2^31`, is excluded: there the int32 negation `count := -size`
wraps back to `-2^31` and the server panics (see the counterexample). -/
theorem batch_order_and_error_slots (h : Handler) (reqs : List (List Nat))
    (h1 : 1 ≤ reqs.length) (h2 : reqs.length ≤ 2 ^ 31 - 1)
    (hwf : ∀ r ∈ reqs, r.length ≤ 2 ^ 31 - 1) :
    readHeaderAndHandleRequest h
        (encInt32 (-(reqs.length : Int)) ++ (reqs.map writeDataWithLength).flatten)
      = .ok (-(reqs.length : Int)) (batchBody (handlerSlots h reqs)) [] := by
  have hr : readInt32 (encInt32 (-(reqs.length : Int)) ++ (reqs.map writeDataWithLength).flatten)
      = some (-(reqs.length : Int), (reqs.map writeDataWithLength).flatten) := by
    rw [readInt32_encInt32]
    rw [toInt32_eq_of_bounds _ (by omega) (by omega)]
  rw [readHeaderAndHandleRequest_some h _ _ _ hr]
  rw [if_pos (by omega : -(reqs.length : Int) < 0)]
  have hcount : toInt32 (-(-(reqs.length : Int))) = (reqs.length : Int) := by
    rw [neg_neg]
    exact toInt32_eq_of_bounds _ (by omega) (by omega)
  rw [hcount]
  rw [if_neg (by omega : ¬ (reqs.length : Int) < 0)]
  have htn : ((reqs.length : Int)).toNat = reqs.length := Int.toNat_natCast _
  rw [htn]
  have hhd : toInt32 (-(reqs.length : Int)) = -(reqs.length : Int) :=
    toInt32_eq_of_bounds _ (by omega) (by omega)
  rw [hhd]
  have hfl : (reqs.map writeDataWithLength).flatten
      = (reqs.map writeDataWithLength).flatten ++ [] := by simp
  rw [hfl]
  have hbs := batchSlots_frames h reqs 0 [] hwf
  rw [Nat.add_zero] at hbs
  rw [hbs, batchSlots_zero]
  simp

/-- C2 counterexample: the representable batch count the original claim
still covers, `N = 2^31`, announced by header `-2^31` and followed by
`2^31` well-formed (zero-length) sub-frames. The server reads the header
and computes `count := -size` in int32 arithmetic, which wraps back to
`-2^31`; `make([][]byte, count)` then panics at the negative length, so
the server emits nothing — neither header `-N` nor any response —
refuting the unbounded claim. -/
theorem batch_count_wrap_panics :
    readHeaderAndHandleRequest echoHandler
        (encInt32 (-(2 ^ 31 : Int)) ++
          (List.replicate (2 ^ 31) (writeDataWithLength [])).flatten)
      = .panicked := by
  have hr : readInt32 (encInt32 (-(2 ^ 31 : Int)) ++
        (List.replicate (2 ^ 31) (writeDataWithLength [])).flatten)
      = some (-(2 ^ 31 : Int), (List.replicate (2 ^ 31) (writeDataWithLength [])).flatten) := by
    rw [readInt32_encInt32]
    rw [toInt32_eq_of_bounds _ (by norm_num) (by norm_num)]
  rw [readHeaderAndHandleRequest_some _ _ _ _ hr]
  rw [if_pos (by norm_num : -(2 ^ 31 : Int) < 0)]
  have hw : toInt32 (-(-(2 ^ 31 : Int))) = -(2 ^ 31 : Int) := by
    unfold toInt32
    omega
  rw [hw]
  rw [if_pos (by norm_num : -(2 ^ 31 : Int) < 0)]

/-- Witness for the batch theorem: a two-request batch against a handler
that errors on the first request and echoes the second. -/
theorem batch_order_and_error_slots_witness :
    readHeaderAndHandleRequest (fun r => if r = [1] then none else some r)
        (encInt32 (-(2 : Int)) ++ ([[1], [2]].map writeDataWithLength).flatten)
      = .ok (-(2 : Int)) (batchBody [[], [2]]) [] := by
  have h := batch_order_and_error_slots (fun r => if r = [1] then none else some r)
    [[1], [2]] (by decide) (by decide) (by decide)
  simpa [handlerSlots] using h

/-- C7 counterexample: a batch of one sub-request whose sub-frame claims
5 bytes but the stream ends after 2. The server does not log-and-terminate
(which would be the `.err` outcome, making `handle` log the error and
return): it answers the batch as if successful, with a nil error, a `-1`
header and a single zero-length response slot. -/
theorem short_subframe_not_terminated :
    readHeaderAndHandleRequest echoHandler
        (encInt32 (-1) ++ encInt32 5 ++ [1, 2])
      = .ok (-1) (encInt32 0) [] ∧
    readHeaderAndHandleRequest echoHandler
        (encInt32 (-1) ++ encInt32 5 ++ [1, 2]) ≠ .err := by
  constructor
  · decide
  · decide

/-- C7 (amended): when a sub-frame of a batch fails to parse (short
frame), the sub-request is silently skipped — its shadowed parse error is
dropped — and its slot is emitted as a zero-length response; the batch is
answered with header `-N` and a nil error as if successful, so the
connection is not terminated. Stated for a batch announcing `N`
sub-requests of which only the first `k < N` frames arrive intact and the
stream then ends. -/
theorem short_subframe_skipped (h : Handler) (N : Nat) (reqs : List (List Nat))
    (h1 : 1 ≤ N) (h2 : N ≤ 2 ^ 31 - 1) (hk : reqs.length < N)
    (hwf : ∀ r ∈ reqs, r.length ≤ 2 ^ 31 - 1) :
    readHeaderAndHandleRequest h
        (encInt32 (-(N : Int)) ++ (reqs.map writeDataWithLength).flatten)
      = .ok (-(N : Int))
          (batchBody (handlerSlots h reqs ++ List.replicate (N - reqs.length) [])) [] := by
  have hr : readInt32 (encInt32 (-(N : Int)) ++ (reqs.map writeDataWithLength).flatten)
      = some (-(N : Int), (reqs.map writeDataWithLength).flatten) := by
    rw [readInt32_encInt32]
    rw [toInt32_eq_of_bounds _ (by omega) (by omega)]
  rw [readHeaderAndHandleRequest_some h _ _ _ hr]
  rw [if_pos (by omega : -(N : Int) < 0)]
  have hcount : toInt32 (-(-(N : Int))) = (N : Int) := by
    rw [neg_neg]
    exact toInt32_eq_of_bounds _ (by omega) (by omega)
  rw [hcount]
  rw [if_neg (by omega : ¬ (N : Int) < 0)]
  have htn : ((N : Int)).toNat = N := Int.toNat_natCast _
  rw [htn]
  have hhd : toInt32 (-(N : Int)) = -(N : Int) :=
    toInt32_eq_of_bounds _ (by omega) (by omega)
  rw [hhd]
  have hsplit : N = reqs.length + (N - reqs.length) := by omega
  rw [hsplit]
  have hfl : (reqs.map writeDataWithLength).flatten
      = (reqs.map writeDataWithLength).flatten ++ [] := by simp
  rw [hfl]
  rw [batchSlots_frames h reqs (N - reqs.length) [] hwf]
  rw [batchSlots_nil_input]
  simp

/-- Witness for the short-sub-frame theorem: a batch announcing two
sub-requests of which only one frame arrives. -/
theorem short_subframe_skipped_witness :
    readHeaderAndHandleRequest echoHandler
        (encInt32 (-(2 : Int)) ++ ([[7]].map writeDataWithLength).flatten)
      = .ok (-(2 : Int)) (batchBody [[7], []]) [] := by
  have h := short_subframe_skipped echoHandler 2 [[7]] (by decide) (by decide) (by decide)
    (by decide)
  simpa [handlerSlots, echoHandler] using h

/-- C1 counterexample: `write-framed` of the empty payload is the bare
header `0`; the server's single-request path then calls
`parseRequest(buf, 0)`, whose `size == 0` case reads a further length from
the stream, so it consumes past the frame and fails instead of delivering
the empty payload. The round trip therefore fails at `p = []`. -/
theorem empty_payload_not_roundtripped :
    writeDataWithLength [] = encInt32 0 ∧
    readHeaderAndHandleRequest echoHandler (writeDataWithLength []) = .err := by
  constructor
  · decide
  · decide

/-- C1 (amended): for every non-empty payload of at most `2^31 - 1` bytes,
write-framed then single-request parsing on the server yields exactly the
payload (echoed with header `len p`), and the client's `readDataWithLength`
of the server's response recovers exactly the payload. -/
theorem single_roundtrip (p : List Nat) (h1 : 1 ≤ p.length) (h2 : p.length ≤ 2 ^ 31 - 1) :
    readHeaderAndHandleRequest echoHandler (writeDataWithLength p)
      = .ok (p.length : Int) p [] ∧
    readDataWithLength (sendResponse (p.length : Int) p) = .ok p [] := by
  have hr : readInt32 (writeDataWithLength p) = some ((p.length : Int), p) := by
    unfold writeDataWithLength
    have hp : encInt32 (p.length : Int) ++ p = encInt32 (p.length : Int) ++ (p ++ []) := by simp
    rw [hp, readInt32_encInt32]
    rw [toInt32_eq_of_bounds _ (by omega) (by omega)]
    simp
  constructor
  · rw [readHeaderAndHandleRequest_some echoHandler _ _ _ hr]
    rw [if_neg (by omega : ¬ (p.length : Int) < 0)]
    have hpr : parseRequest p (p.length : Int) = .ok p [] := by
      rw [parseRequest_nonzero p _ (by omega : (p.length : Int) ≠ 0)]
      exact readFrameBody_all p
    rw [hpr]
    show ServerRes.ok (toInt32 ((p.length : Nat) : Int)) p [] = _
    rw [toInt32_eq_of_bounds _ (by omega) (by omega)]
  · unfold sendResponse
    have hp : encInt32 (p.length : Int) ++ p = encInt32 (p.length : Int) ++ (p ++ []) := by simp
    rw [hp]
    have hri : readInt32 (encInt32 (p.length : Int) ++ (p ++ []))
        = some ((p.length : Int), p ++ []) := by
      rw [readInt32_encInt32]
      rw [toInt32_eq_of_bounds _ (by omega) (by omega)]
    rw [readDataWithLength_some _ _ _ hri, readFrameBody_exact]

/-- Witness for the round-trip theorem at the one-byte payload `[42]`. -/
theorem single_roundtrip_witness :
    readHeaderAndHandleRequest echoHandler (writeDataWithLength [42])
      = .ok ((1 : Nat) : Int) [42] [] ∧
    readDataWithLength (sendResponse ((1 : Nat) : Int) [42]) = .ok [42] [] := by
  have h := single_roundtrip [42] (by decide) (by decide)
  simpa using h

/-- C6: when the four-byte header of a frame decodes to a negative length,
`readDataWithLength` does not return an error: it reaches
`make([]byte, size)` with a negative size, a Go runtime panic. -/
theorem negative_length_panics (b0 b1 b2 b3 : Nat) (rest : List Nat)
    (hneg : decInt32 b0 b1 b2 b3 < 0) :
    readDataWithLength (b0 :: b1 :: b2 :: b3 :: rest) = .panicked := by
  have hr : readInt32 (b0 :: b1 :: b2 :: b3 :: rest) = some (decInt32 b0 b1 b2 b3, rest) := rfl
  rw [readDataWithLength_some _ _ _ hr]
  unfold readFrameBody
  rw [if_pos hneg]

/-- Witness: the header `0xFFFFFFFF` decodes to `-1` and the read panics. -/
theorem negative_length_panics_witness :
    decInt32 255 255 255 255 = -1 ∧
    readDataWithLength [255, 255, 255, 255] = .panicked := by
  refine ⟨by decide, negative_length_panics 255 255 255 255 [] (by decide)⟩

/-- An abstract network error, carrying only what `retryableError`
(client.go) inspects: whether it is a broken pipe / connection refused /
connection reset wrapped in a `net.OpError`. -/
structure NetErr where
  retryable : Bool
deriving DecidableEq

/-- The observable behaviour of one iteration of the `SendRecv` retry
loop: whether `pool.Take` succeeds, the outcome of `sendRequest` on the
taken connection, and the outcome of `readResponse`. Dialing and socket
I/O are effects, so they enter the model as this per-attempt oracle. -/
structure Attempt where
  takeOk : Bool
  sendErr : Option NetErr
  recv : Except NetErr (List Nat)

/-- Result of `Client.SendRecv`: a response with a nil error, a non-nil
error, the fall-through `return` that yields a nil response AND a nil
error, or a runtime panic. -/
inductive SendRecvRes where
  | ok (res : List Nat)
  | errOut (e : NetErr)
  | nilnil
  | panicked
deriving DecidableEq

/-- The body of the `for tries := 1; tries <= c.Retries` loop of
`Client.SendRecv` (client.go). `remaining + 1` iterations are left, so the
current one is the last iff `remaining = 0` (`tries < c.Retries` fails).
When `pool.Take` fails on a non-last attempt the loop continues; on the
last attempt the code falls through and calls `conn.SetDeadline` on the
nil connection `Take` returned — a runtime panic. Send and receive errors
retry only when `retryableError` holds and attempts remain; a successful
receive returns the connection to the pool and the response with a nil
error. -/
def sendRecvLoop (env : Nat → Attempt) (tries : Nat) : Nat → SendRecvRes
  | 0 => .nilnil
  | remaining + 1 =>
    let a := env tries
    if a.takeOk = false then
      if remaining = 0 then .panicked
      else sendRecvLoop env (tries + 1) remaining
    else
      match a.sendErr with
      | some e =>
        if e.retryable && decide (0 < remaining) then sendRecvLoop env (tries + 1) remaining
        else .errOut e
      | none =>
        match a.recv with
        | .error e =>
          if e.retryable && decide (0 < remaining) then sendRecvLoop env (tries + 1) remaining
          else .errOut e
        | .ok res => .ok res

/-- `Client.SendRecv` (client.go): run the retry loop for `Retries`
attempts; with `Retries < 1` the loop body never runs and the function
falls through to `return`, i.e. a nil response and a nil error. -/
def SendRecv (retries : Int) (env : Nat → Attempt) : SendRecvRes :=
  if retries < 1 then .nilnil else sendRecvLoop env 1 retries.toNat

/-- C3: against a pool whose `Take` always fails (unreachable address),
`SendRecv` does not return an error: on the final attempt the failed
`Take` falls through to `conn.SetDeadline` on the nil connection — a
runtime nil-pointer panic. -/
theorem sendRecv_take_always_fails_panics (retries : Int) (env : Nat → Attempt)
    (h1 : 1 ≤ retries) (henv : ∀ t, (env t).takeOk = false) :
    SendRecv retries env = .panicked := by
  unfold SendRecv
  rw [if_neg (by omega : ¬ retries < 1)]
  have key : ∀ n tries, 1 ≤ n → sendRecvLoop env tries n = .panicked := by
    intro n
    induction n with
    | zero => intro tries h; omega
    | succ m ih =>
      intro tries _
      rw [sendRecvLoop, henv tries]
      by_cases hm : m = 0
      · simp [hm]
      · have hrec := ih (tries + 1) (by omega)
        simp [hm, hrec]
  exact key retries.toNat 1 (by omega)

/-- Witness: three retries, every `Take` failing. -/
theorem sendRecv_take_always_fails_panics_witness :
    SendRecv 3 (fun _ => ⟨false, none, .ok []⟩) = .panicked :=
  sendRecv_take_always_fails_panics 3 (fun _ => ⟨false, none, .ok []⟩)
    (by decide) (fun _ => rfl)

/-- C10: with `Retries ≤ 0` the loop `for tries := 1; tries <= c.Retries`
never runs its body, so `SendRecv` consults no attempt at all (the result
is the same for every oracle) and falls through to `return`, yielding a
nil response together with a nil error. -/
theorem sendRecv_no_retries_nil_nil (retries : Int) (env : Nat → Attempt)
    (h : retries ≤ 0) :
    SendRecv retries env = .nilnil ∧
      ∀ env2, SendRecv retries env = SendRecv retries env2 := by
  constructor
  · unfold SendRecv
    rw [if_pos (by omega : retries < 1)]
  · intro env2
    unfold SendRecv
    rw [if_pos (by omega : retries < 1), if_pos (by omega : retries < 1)]

/-- Witness: zero retries against an oracle whose use would be visible. -/
theorem sendRecv_no_retries_nil_nil_witness :
    SendRecv 0 (fun _ => ⟨true, none, .ok [9]⟩) = .nilnil ∧
      ∀ env2, SendRecv 0 (fun _ => ⟨true, none, .ok [9]⟩) = SendRecv 0 env2 :=
  sendRecv_no_retries_nil_nil 0 (fun _ => ⟨true, none, .ok [9]⟩) (by decide)

/-- Result of `NewConnectionPool` (conn.go): the number of pooled
connections, the first dial error, or the runtime panic of indexing
`errs[0]` on an empty slice. -/
inductive PoolRes where
  | ok (conns : Nat)
  | errOut (e : NetErr)
  | panicked
deriving DecidableEq

/-- `NewConnectionPool` (conn.go): dial `initial` times (`dial i = none`
models a successful dial, `some e` a failed one recording `e`); errors are
appended to `errs` in order and successes to the pool; if the pool ends up
empty the code returns `errs[0]` — indexing an empty slice, a runtime
panic, when no dial was attempted. -/
def NewConnectionPool (initial : Nat) (dial : Nat → Option NetErr) : PoolRes :=
  let errs := (List.range initial).filterMap dial
  let conns := initial - errs.length
  if conns = 0 then
    match errs with
    | [] => .panicked
    | e :: _ => .errOut e
  else .ok conns

/-- C4: pool construction with `N₀ = 0` does not succeed with an empty
pool: the pool is empty, no error was recorded, and `errs[0]` panics with
an index-out-of-range. -/
theorem newConnectionPool_zero_panics (dial : Nat → Option NetErr) :
    NewConnectionPool 0 dial = .panicked := rfl

/-- Result of the response-reading loop of `Pipeline.Flush`: the
`responses` slice (a slot is nil, i.e. `[]`, when its read errored) and
the value of the single `err` variable after the loop — the outcome of the
LAST read only, earlier outcomes having been overwritten. -/
inductive FlushLoopRes where
  | ok (responses : List (List Nat)) (errored : Bool)
  | panicked
deriving DecidableEq

/-- The loop `for i := ...; i < -responseCount; i++ { responses[i], err =
readDataWithLength(conn) }` of `Pipeline.Flush` (client.go) over the byte
stream: each iteration overwrites `err`; the third argument is the value
`err` holds on entry (nil after the successful header read). -/
def flushReads : Nat → List Nat → Bool → FlushLoopRes
  | 0, _, e => .ok [] e
  | n + 1, input, _ =>
    match readDataWithLength input with
    | .panicked => .panicked
    | .err =>
      match flushReads n [] true with
      | .panicked => .panicked
      | .ok rs e => .ok ([] :: rs) e
    | .ok d rest =>
      match flushReads n rest false with
      | .panicked => .panicked
      | .ok rs e => .ok (d :: rs) e

theorem flushReads_zero (input : List Nat) (e : Bool) :
    flushReads 0 input e = .ok [] e := rfl

theorem flushReads_succ_ok (n : Nat) (input d rest : List Nat) (e : Bool)
    (h : readDataWithLength input = .ok d rest) :
    flushReads (n + 1) input e =
      match flushReads n rest false with
      | .panicked => .panicked
      | .ok rs e2 => .ok (d :: rs) e2 := by
  rw [flushReads, h]

/-- Result of the response phase of `Pipeline.Flush`, entered after the
request bytes were written: header-read error, count-mismatch error, the
final `(responses, err)` pair, or a runtime panic. -/
inductive FlushRes where
  | ok (responses : List (List Nat)) (errored : Bool)
  | errRead
  | errMismatch
  | panicked
deriving DecidableEq

/-- The response phase of `Pipeline.Flush` (client.go), with `count` the
pipeline's buffered-request counter: read `int32 responseCount`; error out
if `-responseCount != p.count` (the int32 negation wraps at `-2^31`); then
`make([][]byte, -responseCount)` (panic if negative) and run the read
loop; finally `Return` the connection and report `(responses, err)`. -/
def pipelineFlushRecv (count : Int) (input : List Nat) : FlushRes :=
  match readInt32 input with
  | none => .errRead
  | some (r, rest) =>
    if toInt32 (-r) ≠ count then .errMismatch
    else if toInt32 (-r) < 0 then .panicked
    else
      match flushReads (toInt32 (-r)).toNat rest false with
      | .panicked => .panicked
      | .ok rs e => .ok rs e

theorem pipelineFlushRecv_some (count : Int) (input : List Nat) (r : Int) (rest : List Nat)
    (h : readInt32 input = some (r, rest)) :
    pipelineFlushRecv count input =
      (if toInt32 (-r) ≠ count then .errMismatch
      else if toInt32 (-r) < 0 then .panicked
      else
        match flushReads (toInt32 (-r)).toNat rest false with
        | .panicked => .panicked
        | .ok rs e => .ok rs e) := by
  unfold pipelineFlushRecv
  rw [h]

/-- C5 counterexample: an empty pipeline (`N = 0`) receiving the
non-negative response header `R = 0` does NOT fail: `-0 == 0` passes the
only check `Flush` performs, and it returns zero responses with a nil
error, contradicting "fails whenever R ≥ 0". -/
theorem flush_zero_zero_no_mismatch :
    pipelineFlushRecv 0 (encInt32 0) = .ok [] false := by decide

/-- C5 (amended): `Flush` fails with the mismatch error exactly when the
int32 negation of the received header differs from the buffered count,
i.e. (for representable `R` and a count in the int32 range) exactly when
`-R ≠ N`; for `R ≥ 0` with `N ≥ 0` that means it fails unless
`R = 0 ∧ N = 0`, in which case it proceeds and succeeds with zero
responses. -/
theorem flush_mismatch_iff (count R : Int) (rest : List Nat)
    (h0 : 0 ≤ count) (h1 : count ≤ 2 ^ 31 - 1) (h2 : -2 ^ 31 ≤ R) (h3 : R < 2 ^ 31) :
    (pipelineFlushRecv count (encInt32 R ++ rest) = .errMismatch ↔ -R ≠ count) := by
  have hr : readInt32 (encInt32 R ++ rest) = some (R, rest) := by
    rw [readInt32_encInt32, toInt32_eq_of_bounds _ h2 h3]
  rw [pipelineFlushRecv_some count _ R rest hr]
  have hkey : toInt32 (-R) ≠ count ↔ -R ≠ count := by
    unfold toInt32
    omega
  by_cases hc : toInt32 (-R) ≠ count
  · rw [if_pos hc]
    simp [hkey.mp hc]
  · rw [if_neg hc]
    push_neg at hc
    have hcc : -R = count := by
      have hc2 := hc
      unfold toInt32 at hc2
      omega
    rw [hc]
    rw [if_neg (by omega : ¬ count < 0)]
    cases hfr : flushReads count.toNat rest false <;> simp [hcc]

/-- Witness for the mismatch theorem: a one-request pipeline receiving the
header `R = 3` (so `-R = -3 ≠ 1`) fails with the mismatch error. -/
theorem flush_mismatch_iff_witness :
    pipelineFlushRecv 1 (encInt32 3 ++ []) = .errMismatch := by
  have h := flush_mismatch_iff 1 3 [] (by decide) (by decide) (by decide) (by decide)
  exact h.mpr (by decide)

/-- The `Pipeline.Flush` read loop with the per-iteration outcome of
`readDataWithLength(conn)` abstracted as an oracle (`none` = a read that
returned an error, `some d` = a read that returned `d`): iteration `i`
stores `oracle i` in `responses[i]` (nil, i.e. `[]`, on error) and
overwrites the single `err` variable with that outcome. Arguments: number
of iterations left, index of the current iteration, and the value `err`
holds on entry. On a live `net.Conn` an errored read (e.g. a deadline
expiry) does not preclude a later successful one, which the byte-stream
model cannot exhibit; the oracle makes those schedules expressible. -/
def flushLoopOracle (oracle : Nat → Option (List Nat)) :
    Nat → Nat → Bool → List (List Nat) × Bool
  | 0, _, e => ([], e)
  | n + 1, i, _ =>
    let o := oracle i
    let p := flushLoopOracle oracle n (i + 1) o.isNone
    (o.getD [] :: p.1, p.2)

/-- Result of `Pipeline.Flush` over the outcome oracle: `early` is a
return before the loop (header-read failure or count mismatch), where the
connection is NOT returned to the pool; `done` is the final
`return responses, err`, after the unconditional `p.client.pool.Return`. -/
inductive FlushAbsRes where
  | early
  | done (responses : List (List Nat)) (errored : Bool) (returnedConn : Bool)
  | panicked
deriving DecidableEq

/-- `Pipeline.Flush` (client.go) after the request bytes were written,
with the connection's reads abstracted: `hdr` is the outcome of the header
`binary.Read` and `oracle` the per-iteration outcomes of the loop's
`readDataWithLength` calls. The code after the loop is unconditionally
`p.client.pool.Return(conn); return responses, err`. -/
def pipelineFlushOracle (count : Int) (hdr : Option Int)
    (oracle : Nat → Option (List Nat)) : FlushAbsRes :=
  match hdr with
  | none => .early
  | some r =>
    if toInt32 (-r) ≠ count then .early
    else if toInt32 (-r) < 0 then .panicked
    else
      let p := flushLoopOracle oracle (toInt32 (-r)).toNat 0 false
      .done p.1 p.2 true

theorem flushLoopOracle_snd (oracle : Nat → Option (List Nat)) (n i : Nat) (e : Bool) :
    (flushLoopOracle oracle (n + 1) i e).2 = (oracle (i + n)).isNone := by
  induction n generalizing i e with
  | zero => rfl
  | succ m ih =>
    show (flushLoopOracle oracle (m + 1) (i + 1) (oracle i).isNone).2 = _
    rw [ih (i + 1) (oracle i).isNone]
    have heq : i + 1 + m = i + (m + 1) := by omega
    rw [heq]

theorem pipelineFlushOracle_some (count r : Int) (oracle : Nat → Option (List Nat)) :
    pipelineFlushOracle count (some r) oracle =
      (if toInt32 (-r) ≠ count then .early
      else if toInt32 (-r) < 0 then .panicked
      else
        let p := flushLoopOracle oracle (toInt32 (-r)).toNat 0 false
        .done p.1 p.2 true) := rfl

/-- C9: in the `Flush` read loop the `err` of reading response `i` is
overwritten by the read of response `i + 1`, so whenever the final read
succeeds `Flush` reports a nil error, whatever the earlier reads did; and
the connection is returned to the pool on every loop exit, read errors
included. -/
theorem flush_err_overwritten (count r : Int) (oracle : Nat → Option (List Nat))
    (d : List Nat) (hmatch : toInt32 (-r) = count) (h1 : 1 ≤ count)
    (hlast : oracle (count.toNat - 1) = some d) :
    (∃ rs, pipelineFlushOracle count (some r) oracle = .done rs false true) ∧
    (∀ oracle2, ∃ rs e, pipelineFlushOracle count (some r) oracle2 = .done rs e true) := by
  constructor
  · rw [pipelineFlushOracle_some, hmatch]
    rw [if_neg (by omega : ¬ count ≠ count)]
    rw [if_neg (by omega : ¬ count < 0)]
    refine ⟨(flushLoopOracle oracle count.toNat 0 false).1, ?_⟩
    have hn1 : count.toNat = (count.toNat - 1) + 1 := by omega
    have hsnd := flushLoopOracle_snd oracle (count.toNat - 1) 0 false
    rw [← hn1, Nat.zero_add, hlast] at hsnd
    simp only [Option.isNone_some] at hsnd
    show FlushAbsRes.done _ (flushLoopOracle oracle count.toNat 0 false).2 true = _
    rw [hsnd]
  · intro oracle2
    rw [pipelineFlushOracle_some, hmatch]
    rw [if_neg (by omega : ¬ count ≠ count)]
    rw [if_neg (by omega : ¬ count < 0)]
    exact ⟨_, _, rfl⟩

/-- Witness: a two-response flush whose first read errors and whose second
read succeeds still ends with a nil error and the connection returned. -/
theorem flush_err_overwritten_witness :
    (∃ rs, pipelineFlushOracle 2 (some (-2))
        (fun i => if i = 0 then none else some [7]) = .done rs false true) ∧
    (∀ oracle2, ∃ rs e, pipelineFlushOracle 2 (some (-2)) oracle2 = .done rs e true) :=
  flush_err_overwritten 2 (-2) (fun i => if i = 0 then none else some [7]) [7]
    (by decide) (by decide) (by decide)

/-- The counters map of a span, modelled from the spec. `span.go` is not
under `src/` (only `span_test.go` is), so this follows the specification
text: counters are "a mapping from counter name to signed 64-bit integer"
whose "names are unique" — an association list with at most one entry per
name. -/
abbrev Counters : Type := List (String × Int)

/-- Modelled from the spec: `Span.Increment` per "increment(name):
atomically add 1 to counter `name` (creating it at 1); return new value"
and "a counter increment on a non-existent counter creates it at the
incremented value; re-incrementing keeps one entry". The existing entry is
updated in place; a missing name is appended at value 1. -/
def increment (name : String) : Counters → Int × Counters
  | [] => (1, [(name, 1)])
  | (k, v) :: rest =>
    if k = name then (v + 1, (k, v + 1) :: rest)
    else
      let p := increment name rest
      (p.1, (k, v) :: p.2)

/-- The value of counter `name`, `none` when absent. -/
def counterVal (name : String) : Counters → Option Int
  | [] => none
  | (k, v) :: rest => if k = name then some v else counterVal name rest

/-- How many entries of the counters map carry `name`. -/
def countEntries (name : String) : Counters → Nat
  | [] => 0
  | (k, _) :: rest => (if k = name then 1 else 0) + countEntries name rest

/-- The counters map after `k` increments of `name`. -/
def countersAfter (name : String) (c : Counters) : Nat → Counters
  | 0 => c
  | k + 1 => (increment name (countersAfter name c k)).2

theorem countersAfter_zero (name : String) (c : Counters) :
    countersAfter name c 0 = c := rfl

theorem countersAfter_succ (name : String) (c : Counters) (k : Nat) :
    countersAfter name c (k + 1) = (increment name (countersAfter name c k)).2 := rfl

theorem increment_absent (name : String) (c : Counters)
    (h : counterVal name c = none) :
    increment name c = (1, c ++ [(name, 1)]) := by
  induction c with
  | nil => rfl
  | cons p rest ih =>
    obtain ⟨k, v⟩ := p
    rw [counterVal] at h
    by_cases hk : k = name
    · rw [if_pos hk] at h
      cases h
    · rw [if_neg hk] at h
      rw [increment, if_neg hk, ih h]
      rfl

theorem counterVal_append_self (name : String) (c : Counters)
    (h : counterVal name c = none) :
    counterVal name (c ++ [(name, 1)]) = some 1 := by
  induction c with
  | nil => simp [counterVal]
  | cons p rest ih =>
    obtain ⟨k, v⟩ := p
    rw [counterVal] at h
    by_cases hk : k = name
    · rw [if_pos hk] at h
      cases h
    · rw [if_neg hk] at h
      rw [List.cons_append, counterVal, if_neg hk]
      exact ih h

theorem countEntries_zero_of_absent (name : String) (c : Counters)
    (h : counterVal name c = none) :
    countEntries name c = 0 := by
  induction c with
  | nil => rfl
  | cons p rest ih =>
    obtain ⟨k, v⟩ := p
    rw [counterVal] at h
    by_cases hk : k = name
    · rw [if_pos hk] at h
      cases h
    · rw [if_neg hk] at h
      rw [countEntries, if_neg hk, ih h]

theorem countEntries_append_self (name : String) (c : Counters) :
    countEntries name (c ++ [(name, 1)]) = countEntries name c + 1 := by
  induction c with
  | nil => simp [countEntries]
  | cons p rest ih =>
    obtain ⟨k, v⟩ := p
    rw [List.cons_append, countEntries, countEntries, ih]
    omega

theorem increment_present (name : String) (c : Counters) (v : Int)
    (h : counterVal name c = some v) :
    (increment name c).1 = v + 1 ∧
    counterVal name (increment name c).2 = some (v + 1) ∧
    countEntries name (increment name c).2 = countEntries name c := by
  induction c with
  | nil => cases h
  | cons p rest ih =>
    obtain ⟨k, w⟩ := p
    rw [counterVal] at h
    by_cases hk : k = name
    · rw [if_pos hk] at h
      injection h with hv
      subst hv
      rw [increment, if_pos hk]
      refine ⟨rfl, ?_, ?_⟩
      · rw [counterVal, if_pos hk]
      · rw [countEntries, countEntries]
    · rw [if_neg hk] at h
      obtain ⟨ih1, ih2, ih3⟩ := ih h
      rw [increment, if_neg hk]
      refine ⟨ih1, ?_, ?_⟩
      · rw [counterVal, if_neg hk]
        exact ih2
      · rw [countEntries, countEntries, ih3]

/-- C8: on a span whose counter `name` does not exist yet, `k + 1`
increments leave the counter at value `k + 1` stored in exactly one entry,
and the `(k + 1)`-st increment returned the new value `k + 1`. -/
theorem span_increment_counts (name : String) (c : Counters) (k : Nat)
    (habs : counterVal name c = none) :
    counterVal name (countersAfter name c (k + 1)) = some ((k : Int) + 1) ∧
    countEntries name (countersAfter name c (k + 1)) = 1 ∧
    (increment name (countersAfter name c k)).1 = (k : Int) + 1 := by
  induction k with
  | zero =>
    rw [countersAfter_succ, countersAfter_zero, increment_absent name c habs]
    refine ⟨?_, ?_, ?_⟩
    · simpa using counterVal_append_self name c habs
    · simpa [countEntries_append_self] using countEntries_zero_of_absent name c habs
    · norm_num
  | succ m ih =>
    obtain ⟨ih1, ih2, _⟩ := ih
    obtain ⟨p1, p2, p3⟩ := increment_present name _ _ ih1
    refine ⟨?_, ?_, ?_⟩
    · rw [countersAfter_succ, p2]
      congr 1
    · rw [countersAfter_succ, p3, ih2]
    · rw [countersAfter_succ] at p1 ⊢
      rw [p1]
      omega

/-- Witness: three increments of the fresh counter `test` yield value 3,
one entry, and a third increment returning 3. -/
theorem span_increment_counts_witness :
    counterVal "test" (countersAfter "test" [] 3) = some ((2 : Nat) + 1) ∧
    countEntries "test" (countersAfter "test" [] 3) = 1 ∧
    (increment "test" (countersAfter "test" [] 2)).1 = (2 : Nat) + 1 :=
  span_increment_counts "test" [] 2 rfl

end Tcpez
